import Mathlib

/-!
Verification of the LLM-orchestration core of the Cold-Email-Generator
repository (`chains.py`): credential resolution, the retry wrapper
`_invoke_with_retry`, and the two fallback pipelines `Chain.extract_jobs`
and `Chain.write_mail`.

The embedding keeps the Python structure: Python truthiness of optional
strings is `truthy`, Python `a or b` on such values is `pyOr`, exceptions
become `Except String`, and the third-party collaborators (model client
construction, the network invocation, the JSON output parsing of the
LangChain library) are supplied as an explicit environment `ProviderEnv`,
since their code is not part of this repository.  Each loop returns a
trace recording, besides the result, the list of candidates for which a
client construction was performed, so that "no candidate after the first
success is touched" is statable.
-/

namespace ColdEmail

/-- Python truthiness of an optional string: `None` and `""` are falsy. -/
def truthy : Option String → Bool
  | none => false
  | some s => !s.isEmpty

/-- Python `a or b` on optional strings: `b` when `a` is falsy. -/
def pyOr (a b : Option String) : Option String :=
  if truthy a then a else b

/-- Lookup in a store of named string values (a secret store or the
process environment), returning the first binding of the name. -/
def lookupStore (store : List (String × String)) (name : String) : Option String :=
  (store.find? (fun p => p.1 == name)).map (fun p => p.2)

/-- `_get_secret`: read from the Streamlit secret store if present, else
from the OS environment (`val or os.getenv(name)`). -/
def getSecret (secrets env : List (String × String)) (name : String) : Option String :=
  pyOr (lookupStore secrets name) (lookupStore env name)

/-- The configuration state a `Chain` object holds after `__init__`:
the three resolved keys (`self.fast_key`, `self.heavy_key`,
`self.gemini_key`).  The model-name fields are constants (below). -/
structure Chain where
  fast_key : Option String
  heavy_key : Option String
  gemini_key : Option String
  deriving DecidableEq, Repr

def fastModel : String := "llama-3.1-8b-instant"
def heavyModel : String := "llama-3.3-70b-versatile"
def geminiModel : String := "gemini-1.5-flash"

/-- `Chain.__init__`: resolve `GROQ_API_KEY` and `GEMINI_API_KEY`; raise
`ValueError` when both are falsy; otherwise resolve the per-role keys
with fallback to the base key. -/
def mkChain (secrets env : List (String × String)) : Except String Chain :=
  let base := getSecret secrets env "GROQ_API_KEY"
  let gem := getSecret secrets env "GEMINI_API_KEY"
  if !truthy base && !truthy gem then
    Except.error "❌ No API key found. Add GROQ_API_KEY or GEMINI_API_KEY in secrets or .env"
  else
    Except.ok
      { fast_key := pyOr (getSecret secrets env "GROQ_API_KEY_FAST") base
        heavy_key := pyOr (getSecret secrets env "GROQ_API_KEY_HEAVY") base
        gemini_key := gem }

/-- The two provider families of the fallback chains. -/
inductive Provider
  | groq
  | gemini
  deriving DecidableEq, Repr

/-- One fallback candidate: the `(provider, api_key, model)` triple that
`extract_jobs` / `write_mail` append to their `attempts` list. -/
structure Candidate where
  provider : Provider
  key : Option String
  model : String
  deriving DecidableEq, Repr

def fastCandidate (c : Chain) : Candidate :=
  ⟨Provider.groq, c.fast_key, fastModel⟩

def heavyCandidate (c : Chain) : Candidate :=
  ⟨Provider.groq, c.heavy_key, heavyModel⟩

def geminiCandidate (c : Chain) : Candidate :=
  ⟨Provider.gemini, c.gemini_key, geminiModel⟩

/-- The `attempts` list built by `extract_jobs`: fast Groq model if its
key is truthy, then heavy Groq model, then Gemini. -/
def extractionCandidates (c : Chain) : List Candidate :=
  ((if truthy c.fast_key then [fastCandidate c] else []) ++
    (if truthy c.heavy_key then [heavyCandidate c] else [])) ++
    (if truthy c.gemini_key then [geminiCandidate c] else [])

/-- The `attempts` list built by `write_mail`: heavy Groq model first,
then fast Groq model, then Gemini. -/
def draftCandidates (c : Chain) : List Candidate :=
  ((if truthy c.heavy_key then [heavyCandidate c] else []) ++
    (if truthy c.fast_key then [fastCandidate c] else [])) ++
    (if truthy c.gemini_key then [geminiCandidate c] else [])

/-- The preference order of `extract_jobs` as the spec states it:
cheaper/faster first, larger second, alternate provider family last. -/
def extractionPreference (c : Chain) : List Candidate :=
  [fastCandidate c, heavyCandidate c, geminiCandidate c]

/-- The preference order of `write_mail` as the spec states it: the
inverse Groq preference, alternate provider family still last. -/
def draftPreference (c : Chain) : List Candidate :=
  [heavyCandidate c, fastCandidate c, geminiCandidate c]

/-- JSON values, the possible results of the JSON output parsing of a
model response. -/
inductive Json
  | null
  | bool (b : Bool)
  | num (n : Int)
  | str (s : String)
  | arr (elems : List Json)
  | obj (fields : List (String × Json))

/-- The normalization on line 134 of `chains.py`:
`parsed if isinstance(parsed, list) else [parsed]`. -/
def normalizeParsed : Json → List Json
  | Json.arr elems => elems
  | j => [j]

/-- The rate-limit markers of `_invoke_with_retry`. -/
def rateLimitMarkers : List String :=
  ["rate limit", "429", "quota", "exceeded"]

/-- The characters of a string lowercased, modelling `str(e).lower()`. -/
def lowerChars (s : String) : List Char :=
  s.data.map Char.toLower

/-- `any(k in msg for k in [...])` on the lowercased error message. -/
def isRateLimit (msg : String) : Bool :=
  rateLimitMarkers.any (fun k => decide (k.data <:+: lowerChars msg))

/-- The outcome of `_invoke_with_retry`: the returned value or raised
error, together with how many `invoke` attempts were made and how many
backoff sleeps were performed. -/
structure RetryTrace (α : Type) where
  result : Except String α
  attempts : Nat
  sleeps : Nat
  deriving Repr

/-- The `for _ in range(retries + 1)` loop of `_invoke_with_retry`.
`invoke` gives the behaviour of `chain.invoke(payload)` at each attempt
index (the mock may be stateful across attempts); `start` is the index
of the next attempt, `fuel` the remaining iterations, `last` the last
caught error.  A caught rate-limit error sleeps and continues; any other
error is re-raised at once; an exhausted loop raises `last`. -/
def retryLoop (invoke : Nat → Except String α) :
    Nat → Nat → Option String → RetryTrace α
  | _, 0, last => ⟨Except.error (last.getD ""), 0, 0⟩
  | start, fuel + 1, _ =>
    match invoke start with
    | Except.ok a => ⟨Except.ok a, 1, 0⟩
    | Except.error e =>
      if isRateLimit e then
        let rest := retryLoop invoke (start + 1) fuel (some e)
        ⟨rest.result, rest.attempts + 1, rest.sleeps + 1⟩
      else
        ⟨Except.error e, 1, 0⟩

/-- `_invoke_with_retry(chain, payload, retries)`. -/
def invokeWithRetry (invoke : Nat → Except String α) (retries : Nat) : RetryTrace α :=
  retryLoop invoke 0 (retries + 1) none

/-- The third-party collaborators the pipelines call, supplied as an
environment: client construction (which may raise), the model
invocation on a rendered prompt (indexed by the attempt number and
yielding the textual content of the response), and the JSON output
parsing applied to that content. -/
structure ProviderEnv where
  construct : Candidate → Except String Unit
  invoke : Candidate → String → Nat → Except String String
  parse : String → Except String Json

/-- The extraction prompt template with `{page_data}` substituted. -/
def extractPrompt (page_data : String) : String :=
  "### SCRAPED TEXT FROM WEBSITE:\n" ++ page_data ++
    "\n\n### INSTRUCTION:\nThe scraped text is from a careers page.\nExtract job postings and return valid JSON with keys: role, experience, skills, description.\nReturn ONLY JSON (no extra text)."

/-- The body of one iteration of the `extract_jobs` fallback loop:
construct the client, invoke with one retry, parse the textual content,
normalize the parsed value to a list. -/
def candStep (env : ProviderEnv) (prompt : String) (cand : Candidate) :
    Except String (List Json) :=
  match env.construct cand with
  | Except.error e => Except.error e
  | Except.ok _ =>
    match (invokeWithRetry (env.invoke cand prompt) 1).result with
    | Except.error e => Except.error e
    | Except.ok content =>
      match env.parse content with
      | Except.error e => Except.error e
      | Except.ok parsed => Except.ok (normalizeParsed parsed)

/-- The result of an extraction pipeline run together with the
candidates for which a client construction was performed, in order. -/
structure ExtractTrace where
  result : Except String (List Json)
  attempted : List Candidate

/-- The fallback loop of `extract_jobs`: try each candidate, return the
first success, record each failure as `last_error` and continue; on
exhaustion raise `last_error or RuntimeError(...)`. -/
def extractLoop (env : ProviderEnv) (prompt : String) :
    List Candidate → Option String → ExtractTrace
  | [], lastError =>
    ⟨Except.error (lastError.getD "❌ Extraction failed on all providers."), []⟩
  | cand :: rest, _ =>
    match candStep env prompt cand with
    | Except.ok v => ⟨Except.ok v, [cand]⟩
    | Except.error e =>
      let t := extractLoop env prompt rest (some e)
      ⟨t.result, cand :: t.attempted⟩

/-- `Chain.extract_jobs(cleaned_text)`. -/
def extract_jobs (env : ProviderEnv) (c : Chain) (cleaned_text : String) : ExtractTrace :=
  extractLoop env (extractPrompt cleaned_text) (extractionCandidates c) none

/-- Python single quote, for the `str()` rendering of a dict. -/
def sq : String := String.singleton (Char.ofNat 39)

/-- `str(job)` for a job record modelled as a dict of string fields. -/
def strDict (d : List (String × String)) : String :=
  "\x7b" ++
    String.intercalate ", "
      (d.map (fun p => sq ++ p.1 ++ sq ++ ": " ++ sq ++ p.2 ++ sq)) ++
    "\x7d"

/-- The drafting prompt template with `{job_description}` substituted. -/
def emailPrompt (job_description : String) : String :=
  "### JOB DESCRIPTION:\n" ++ job_description ++
    "\n\n### INSTRUCTION:\nYou are Mohan, BDE at AtliQ (AI & Software Consulting).\nWrite a short, well-structured plain text cold email — no Markdown, no hashtags.\nInclude: subject, greeting, intro, relevant expertise, clear CTA.\nReturn only clean plain text."

/-- The result of a drafting pipeline run with its construction trace. -/
structure DraftTrace where
  result : Except String String
  attempted : List Candidate
  deriving Repr

/-- The body of one iteration of the `write_mail` fallback loop:
construct the client, invoke with one retry, return the textual
content. -/
def draftStep (env : ProviderEnv) (prompt : String) (cand : Candidate) :
    Except String String :=
  match env.construct cand with
  | Except.error e => Except.error e
  | Except.ok _ => (invokeWithRetry (env.invoke cand prompt) 1).result

/-- The fallback loop of `write_mail`. -/
def writeLoop (env : ProviderEnv) (prompt : String) :
    List Candidate → Option String → DraftTrace
  | [], lastError =>
    ⟨Except.error (lastError.getD "❌ Email writing failed on all providers."), []⟩
  | cand :: rest, _ =>
    match draftStep env prompt cand with
    | Except.ok v => ⟨Except.ok v, [cand]⟩
    | Except.error e =>
      let t := writeLoop env prompt rest (some e)
      ⟨t.result, cand :: t.attempted⟩

/-- `Chain.write_mail(job, links)` as explicit state passing: the method
body contains no assignment to `self`, so the configuration state it
returns is the one it received.  The payload is
`{"job_description": str(job)}`; the `links` parameter does not occur in
the body. -/
def writeMailS (env : ProviderEnv) (c : Chain)
    (job : List (String × String)) (links : List String) : DraftTrace × Chain :=
  (writeLoop env (emailPrompt (strDict job)) (draftCandidates c) none, c)

/-! ## Retry wrapper -/

/-- Auxiliary: if the attempts from `start` fail `n` times with
rate-limit-flavoured errors and then succeed, and the loop has fuel for
them, the loop returns the success counting `n + 1` attempts and `n`
sleeps. -/
theorem retryLoop_rate_limit (invoke : Nat → Except String α) (a : α) :
    ∀ (n start fuel : Nat) (last : Option String),
      (∀ i < n, ∃ e, invoke (start + i) = Except.error e ∧ isRateLimit e = true) →
      invoke (start + n) = Except.ok a →
      n < fuel →
      retryLoop invoke start fuel last = ⟨Except.ok a, n + 1, n⟩ := by
  intro n
  induction n with
  | zero =>
    intro start fuel last _ hsucc hfuel
    match fuel, hfuel with
    | fuel + 1, _ =>
      simp only [retryLoop]
      rw [show start + 0 = start from rfl] at hsucc
      rw [hsucc]
  | succ n ih =>
    intro start fuel last hfail hsucc hfuel
    match fuel, hfuel with
    | fuel + 1, hfuel =>
      obtain ⟨e, he, hrl⟩ := hfail 0 (Nat.succ_pos n)
      rw [show start + 0 = start from rfl] at he
      simp only [retryLoop, he, hrl, if_true]
      have hrest : retryLoop invoke (start + 1) fuel (some e) = ⟨Except.ok a, n + 1, n⟩ := by
        apply ih
        · intro i hi
          obtain ⟨e0, he0, hrl0⟩ := hfail (i + 1) (Nat.succ_lt_succ hi)
          exact ⟨e0, by rw [show start + 1 + i = start + (i + 1) by omega]; exact he0, hrl0⟩
        · rw [show start + 1 + n = start + (n + 1) by omega]; exact hsucc
        · omega
      rw [hrest]

/-- C4: if `invoke` raises a rate-limit-flavoured error exactly on the
first `n` attempts and then succeeds, then with a retry budget of at
least `n` the retry wrapper returns the success as the result of the
`(n + 1)`-th attempt after sleeping exactly `n` times. -/
theorem invoke_with_retry_rate_limit_recovery (invoke : Nat → Except String α)
    (n retries : Nat) (a : α)
    (hfail : ∀ i < n, ∃ e, invoke i = Except.error e ∧ isRateLimit e = true)
    (hsucc : invoke n = Except.ok a)
    (hn : n ≤ retries) :
    invokeWithRetry invoke retries = ⟨Except.ok a, n + 1, n⟩ := by
  unfold invokeWithRetry
  exact retryLoop_rate_limit invoke a n 0 (retries + 1) none
    (by simpa using hfail) (by simpa using hsucc) (by omega)

theorem invoke_with_retry_rate_limit_recovery_witness :
    invokeWithRetry
        (fun i => if i = 0 then Except.error "Error 429: quota exceeded" else Except.ok "done") 1 =
      ⟨Except.ok "done", 2, 1⟩ :=
  invoke_with_retry_rate_limit_recovery _ 1 1 "done"
    (by
      intro i hi
      have h0 : i = 0 := by omega
      subst h0
      exact ⟨"Error 429: quota exceeded", rfl, by decide⟩)
    rfl
    (by omega)

/-- C5: an error whose message carries no rate-limit marker is
propagated immediately: one attempt, no sleep, no further attempts,
whatever the retry budget. -/
theorem invoke_with_retry_non_transient (invoke : Nat → Except String α)
    (retries : Nat) (e : String)
    (h0 : invoke 0 = Except.error e)
    (hnm : isRateLimit e = false) :
    invokeWithRetry invoke retries = ⟨Except.error e, 1, 0⟩ := by
  simp [invokeWithRetry, retryLoop, h0, hnm]

theorem invoke_with_retry_non_transient_witness :
    invokeWithRetry (fun _ => (Except.error "invalid api key" : Except String String)) 5 =
      ⟨Except.error "invalid api key", 1, 0⟩ :=
  invoke_with_retry_non_transient _ 5 "invalid api key" rfl (by decide)

/-! ## Extraction pipeline -/

/-- Auxiliary: the fallback loop stops at the first succeeding
candidate, whatever error was recorded before. -/
theorem extractLoop_first_success_aux (env : ProviderEnv) (prompt : String)
    (v : List Json) (cand : Candidate) (post : List Candidate) :
    ∀ (pre : List Candidate) (last : Option String),
      (∀ c0 ∈ pre, ∃ e, candStep env prompt c0 = Except.error e) →
      candStep env prompt cand = Except.ok v →
      extractLoop env prompt (pre ++ cand :: post) last = ⟨Except.ok v, pre ++ [cand]⟩ := by
  intro pre
  induction pre with
  | nil =>
    intro last _ hok
    simp [extractLoop, hok]
  | cons c0 pre ih =>
    intro last hpre hok
    obtain ⟨e, he⟩ := hpre c0 (List.mem_cons_self c0 pre)
    have hrest := ih (some e) (fun c1 h1 => hpre c1 (List.mem_cons_of_mem c0 h1)) hok
    simp [extractLoop, he, hrest]

/-- C1: when the candidate list of `extract_jobs` splits as
`pre ++ cand :: post` with every candidate of `pre` failing and `cand`
succeeding (client construction, invocation with retry and JSON parse
all succeed), `extract_jobs` returns exactly the normalized parse of
`cand`, and the candidates it constructed and invoked are precisely
`pre` followed by `cand` — none of `post` is touched. -/
theorem extract_jobs_first_success (env : ProviderEnv) (c : Chain) (text : String)
    (pre post : List Candidate) (cand : Candidate) (v : List Json)
    (hsplit : extractionCandidates c = pre ++ cand :: post)
    (hpre : ∀ c0 ∈ pre, ∃ e, candStep env (extractPrompt text) c0 = Except.error e)
    (hok : candStep env (extractPrompt text) cand = Except.ok v) :
    extract_jobs env c text = ⟨Except.ok v, pre ++ [cand]⟩ := by
  rw [extract_jobs, hsplit]
  exact extractLoop_first_success_aux env (extractPrompt text) v cand post pre none hpre hok

/-- Auxiliary: with every candidate failing, the loop raises the last
candidate's error and its construction trace lists every candidate. -/
theorem extractLoop_exhaust_aux (env : ProviderEnv) (prompt : String)
    (lastC : Candidate) (e : String) :
    ∀ (init : List Candidate) (last : Option String),
      (∀ c0 ∈ init, ∃ e0, candStep env prompt c0 = Except.error e0) →
      candStep env prompt lastC = Except.error e →
      extractLoop env prompt (init ++ [lastC]) last = ⟨Except.error e, init ++ [lastC]⟩ := by
  intro init
  induction init with
  | nil =>
    intro last _ hlast
    simp [extractLoop, hlast, Option.getD]
  | cons c0 init ih =>
    intro last hinit hlast
    obtain ⟨e0, he0⟩ := hinit c0 (List.mem_cons_self c0 init)
    have hrest := ih (some e0) (fun c1 h1 => hinit c1 (List.mem_cons_of_mem c0 h1)) hlast
    simp [extractLoop, he0, hrest]

/-- C2: when every configured candidate fails, `extract_jobs` raises
the error of the last candidate and has constructed every candidate
once; when the candidate list is empty, it raises the generic
extraction failure. -/
theorem extract_jobs_exhaustion (env : ProviderEnv) (c : Chain) (text : String)
    (hall : ∀ c0 ∈ extractionCandidates c,
      ∃ e0, candStep env (extractPrompt text) c0 = Except.error e0) :
    (extractionCandidates c = [] →
      extract_jobs env c text =
        ⟨Except.error "❌ Extraction failed on all providers.", []⟩) ∧
    ∀ (init : List Candidate) (lastC : Candidate) (e : String),
      extractionCandidates c = init ++ [lastC] →
      candStep env (extractPrompt text) lastC = Except.error e →
      extract_jobs env c text = ⟨Except.error e, extractionCandidates c⟩ := by
  constructor
  · intro hnil
    rw [extract_jobs, hnil]
    simp [extractLoop]
  · intro init lastC e hsplit hlast
    rw [extract_jobs, hsplit]
    exact extractLoop_exhaust_aux env (extractPrompt text) lastC e init none
      (fun c0 h0 => hall c0 (by rw [hsplit]; exact List.mem_append_left _ h0)) hlast

/-- C6: when a candidate heads the list and its invocation succeeds
with content that parses to a JSON value `j`, `extract_jobs` returns
the normalization of `j`: a JSON array is returned as its element list,
in order and unmodified, and any non-array value is wrapped in a
one-element sequence. -/
theorem extract_jobs_normalizes (env : ProviderEnv) (c : Chain) (text : String)
    (cand : Candidate) (rest : List Candidate) (content : String) (j : Json)
    (hsplit : extractionCandidates c = cand :: rest)
    (hcon : env.construct cand = Except.ok ())
    (hinv : (invokeWithRetry (env.invoke cand (extractPrompt text)) 1).result =
      Except.ok content)
    (hp : env.parse content = Except.ok j) :
    (extract_jobs env c text).result = Except.ok (normalizeParsed j) ∧
    (∀ elems, j = Json.arr elems → (extract_jobs env c text).result = Except.ok elems) ∧
    ((∀ elems, j ≠ Json.arr elems) → (extract_jobs env c text).result = Except.ok [j]) := by
  have hstep : candStep env (extractPrompt text) cand = Except.ok (normalizeParsed j) := by
    simp [candStep, hcon, hinv, hp]
  have hmain : (extract_jobs env c text).result = Except.ok (normalizeParsed j) := by
    rw [extract_jobs, hsplit]
    simp [extractLoop, hstep]
  refine ⟨hmain, ?_, ?_⟩
  · intro elems harr
    rw [hmain, harr]
    rfl
  · intro hnotarr
    rw [hmain]
    cases j with
    | arr elems => exact absurd rfl (hnotarr elems)
    | null => rfl
    | bool b => rfl
    | num n => rfl
    | str s => rfl
    | obj fields => rfl

/-- C8: a candidate whose invocation succeeds but whose textual
response fails to parse is recorded as failing with the parse error,
and the fallback loop continues with the remaining candidates exactly
as it does after an invocation failure — it does not abort while later
candidates remain. -/
theorem parse_failure_falls_back (env : ProviderEnv) (prompt : String)
    (cand : Candidate) (rest : List Candidate) (last : Option String)
    (content : String) (e : String)
    (hcon : env.construct cand = Except.ok ())
    (hinv : (invokeWithRetry (env.invoke cand prompt) 1).result = Except.ok content)
    (hp : env.parse content = Except.error e) :
    candStep env prompt cand = Except.error e ∧
    extractLoop env prompt (cand :: rest) last =
      ⟨(extractLoop env prompt rest (some e)).result,
        cand :: (extractLoop env prompt rest (some e)).attempted⟩ := by
  have hstep : candStep env prompt cand = Except.error e := by
    simp [candStep, hcon, hinv, hp]
  exact ⟨hstep, by simp [extractLoop, hstep]⟩

/-! ## Concrete witness scenarios -/

def chainW1 : Chain := ⟨some "k", some "k", none⟩

def envW1 : ProviderEnv where
  construct := fun _ => Except.ok ()
  invoke := fun cand _ _ =>
    if cand.model == fastModel then Except.error "boom" else Except.ok "[]"
  parse := fun s => if s == "[]" then Except.ok (Json.arr []) else Except.error "bad"

theorem extract_jobs_first_success_witness :
    extract_jobs envW1 chainW1 "page" =
      ⟨Except.ok [], [fastCandidate chainW1, heavyCandidate chainW1]⟩ :=
  extract_jobs_first_success envW1 chainW1 "page" [fastCandidate chainW1] []
    (heavyCandidate chainW1) [] rfl
    (by
      intro c0 h0
      rw [List.mem_singleton] at h0
      subst h0
      exact ⟨"boom", rfl⟩)
    rfl

def chainW2 : Chain := ⟨none, none, some "g"⟩

def envW2 : ProviderEnv where
  construct := fun _ => Except.ok ()
  invoke := fun _ _ _ => Except.error "bad auth"
  parse := fun _ => Except.error "unused"

theorem extract_jobs_exhaustion_witness :
    extract_jobs envW2 chainW2 "page" =
      ⟨Except.error "bad auth", extractionCandidates chainW2⟩ :=
  (extract_jobs_exhaustion envW2 chainW2 "page"
      (fun _ _ => ⟨"bad auth", rfl⟩)).2
    [] (geminiCandidate chainW2) "bad auth" rfl rfl

def chainW6 : Chain := ⟨none, none, some "g"⟩

def jW6 : Json := Json.obj [("role", Json.str "X"), ("skills", Json.str "a, b, c")]

def envW6 : ProviderEnv where
  construct := fun _ => Except.ok ()
  invoke := fun _ _ _ => Except.ok "OBJ"
  parse := fun s => if s == "OBJ" then Except.ok jW6 else Except.error "bad"

theorem extract_jobs_normalizes_witness :
    (extract_jobs envW6 chainW6 "page").result = Except.ok [jW6] :=
  (extract_jobs_normalizes envW6 chainW6 "page" (geminiCandidate chainW6) [] "OBJ" jW6
      rfl rfl rfl rfl).2.2
    (fun _ h => Json.noConfusion h)

def envW8 : ProviderEnv where
  construct := fun _ => Except.ok ()
  invoke := fun _ _ _ => Except.ok "X"
  parse := fun _ => Except.error "not json"

def candW8 : Candidate := ⟨Provider.groq, some "k", fastModel⟩

def candW8b : Candidate := ⟨Provider.groq, some "k", heavyModel⟩

theorem parse_failure_falls_back_witness :
    candStep envW8 "p" candW8 = Except.error "not json" ∧
    extractLoop envW8 "p" [candW8, candW8b] none =
      ⟨(extractLoop envW8 "p" [candW8b] (some "not json")).result,
        candW8 :: (extractLoop envW8 "p" [candW8b] (some "not json")).attempted⟩ :=
  parse_failure_falls_back envW8 "p" candW8 [candW8b] none "X" "not json" rfl rfl rfl

/-! ## Configuration -/

/-- C3 counterexample: a store holding only `GROQ_API_KEY_FAST` makes
that name resolvable, yet `Chain` construction still fails: the
constructor checks only the base Groq key and the Gemini key. -/
theorem chain_config_counterexample :
    truthy (getSecret [("GROQ_API_KEY_FAST", "k")] [] "GROQ_API_KEY_FAST") = true ∧
    mkChain [("GROQ_API_KEY_FAST", "k")] [] =
      Except.error "❌ No API key found. Add GROQ_API_KEY or GEMINI_API_KEY in secrets or .env" := by
  constructor <;> rfl

/-- C3 amended: `Chain` construction fails with the configuration error
exactly when neither `GROQ_API_KEY` nor `GEMINI_API_KEY` resolves to a
non-empty value; the FAST and HEAVY keys are not consulted by the
check, and when either of the two checked names resolves, construction
succeeds. -/
theorem mkChain_error_iff (secrets env : List (String × String)) :
    (∃ msg, mkChain secrets env = Except.error msg) ↔
      truthy (getSecret secrets env "GROQ_API_KEY") = false ∧
      truthy (getSecret secrets env "GEMINI_API_KEY") = false := by
  simp only [mkChain]
  cases hb : truthy (getSecret secrets env "GROQ_API_KEY") <;>
    cases hg : truthy (getSecret secrets env "GEMINI_API_KEY") <;>
      simp [hb, hg]

/-! ## Candidate ordering -/

/-- C7: both fallback lists are the filter of their fixed preference
order by credential truthiness: extraction prefers the fast Groq model,
then the heavy one, with Gemini last, drafting uses the inverse Groq
preference with Gemini still last, and in both a candidate is present
exactly when its key resolved. -/
theorem candidate_order_matches_preference (c : Chain) :
    extractionCandidates c = (extractionPreference c).filter (fun cd => truthy cd.key) ∧
    draftCandidates c = (draftPreference c).filter (fun cd => truthy cd.key) := by
  constructor <;>
    · cases hf : truthy c.fast_key <;> cases hh : truthy c.heavy_key <;>
        cases hg : truthy c.gemini_key <;>
          simp [extractionCandidates, draftCandidates, extractionPreference,
            draftPreference, fastCandidate, heavyCandidate, geminiCandidate,
            List.filter, hf, hh, hg]

/-! ## Email drafting pipeline -/

/-- C9: `write_mail` leaves the configuration state unchanged, and a
second call with identical arguments (under the same deterministic
provider behaviour) returns the identical result. -/
theorem write_mail_idempotent (env : ProviderEnv) (c : Chain)
    (job : List (String × String)) (links : List String) :
    (writeMailS env c job links).2 = c ∧
    writeMailS env (writeMailS env c job links).2 job links =
      writeMailS env c job links :=
  ⟨rfl, rfl⟩

/-- C10: the drafting result depends only on the stringified job
record: two calls agreeing on `str(job)` agree on everything, whatever
their `links` arguments — in particular the output is independent of
`links`, which the body never reads. -/
theorem write_mail_links_independent (env : ProviderEnv) (c : Chain)
    (j1 j2 : List (String × String)) (l1 l2 : List String)
    (h : strDict j1 = strDict j2) :
    writeMailS env c j1 l1 = writeMailS env c j2 l2 := by
  simp [writeMailS, h]

def chainW10 : Chain := ⟨some "k", some "k", none⟩

def envW10 : ProviderEnv where
  construct := fun _ => Except.ok ()
  invoke := fun _ _ _ => Except.ok "email body"
  parse := fun _ => Except.error "unused"

theorem write_mail_links_independent_witness :
    writeMailS envW10 chainW10 [("role", "X")] [] =
      writeMailS envW10 chainW10 [("role", "X")]
        ["https://example.com/a", "https://example.com/b"] :=
  write_mail_links_independent envW10 chainW10 _ _ _ _ rfl

end ColdEmail
